import Mathlib

/-
Verification development for the onionbox repository: a shallow embedding of
the ephemeral secure-buffer subsystem (onion_buffer.OnionBuffer and the
upload/download/router handlers of onionbox.go), with theorems settling the
frozen claims about it.

Conventions of the embedding:
- Go byte slices are `List Nat`, one entry per byte (0..255).
- `time.Time` values are `Nat` (instants on a single clock); the Go zero time
  is `0`, and `t.After(u)` is `u < t`.
- Go `int` is `Int`.
- The per-buffer `sync.Mutex` is the boolean field `locked`; an operation that
  would block forever on the mutex is modelled as returning `none`.
- `syscall.Mlock` status of the memory backing `Bytes` is the ghost boolean
  `pinned`; `syscall.Munlock` on it sets `pinned := false`.
- Fallible syscalls and I/O are parameterised by explicit environment records
  of failure flags, so every code path of the source is reachable in the model.
-/

namespace Onionbox

/-- The OnionBuffer struct of onion_buffer (src/unnamed/part_000 lines 14-25),
with the embedded sync.Mutex as `locked` and the Mlock status of the memory
backing `Bytes` as the ghost field `pinned`.  `ChunkSize` is the extra field
assigned by onionbox.go when it creates the buffer. -/
structure OnionBuffer where
  locked : Bool := false
  pinned : Bool := false
  Name : String := ""
  Bytes : List Nat := []
  Checksum : Nat := 0
  Encrypted : Bool := false
  Downloads : Int := 0
  DownloadLimit : Int := 0
  DownloadsLimited : Bool := false
  CreatedAt : Nat := 0
  ExpiresAt : Nat := 0
  ChunkSize : Int := 1024
deriving DecidableEq

/-- IsExpired (src/unnamed/part_000 lines 60-65): returns false when
ExpiresAt.After(now), i.e. when now < ExpiresAt, and true otherwise.  The
struct has no hasExpiry flag: a buffer whose ExpiresAt was never assigned
keeps the zero time. -/
def OnionBuffer.IsExpired (of : OnionBuffer) (now : Nat) : Bool :=
  if now < of.ExpiresAt then false else true

/-- The ways Destroy (src/unnamed/part_000 lines 27-58) can return a non-nil
error: syscall.Mlock of the 1-byte chunk fails, a write into the scratch zip
entry fails, the read loop ends with a non-io.EOF error, or syscall.Munlock
of the content fails. -/
inductive DestroyError
  | mlockChunk
  | zipWrite
  | readNonEOF
  | munlock
deriving DecidableEq

/-- Failure-injection environment for one call to Destroy: which of its four
fallible operations fail (each at its first opportunity). -/
structure DestroyEnv where
  mlockChunkFails : Bool := false
  zipWriteFails : Bool := false
  readFails : Bool := false
  munlockFails : Bool := false
deriving DecidableEq

/-- The bytes archive/zip appends to the underlying buffer when
zWriter.Create(name) opens an entry.  The exact layout of the header is
library behaviour and irrelevant to every claim; what matters is that it is
appended to the scratch buffer, after the original content. -/
def zipLocalHeader (name : String) : List Nat :=
  [80, 75, 3, 4] ++ name.toList.map Char.toNat

/-- Result of one Destroy call: the buffer afterwards, the final contents of
the scratch bytes.Buffer the zip writer targeted, and the returned error. -/
structure DestroyResult where
  buf : OnionBuffer
  scratch : List Nat
  err : Option DestroyError
deriving DecidableEq

/-- The body of Destroy (src/unnamed/part_000 lines 27-58) after of.Lock()
succeeded.  The code builds `buffer := bytes.NewBuffer(of.Bytes)` - a scratch
buffer whose write position is at the END of the content - wraps it in a zip
writer, opens an entry named of.Name, and for every byte it reads out of a
second reader over of.Bytes writes the ASCII byte "0" (48) into that zip
entry (compression is elided: we record the logical entry payload).  The
field of.Bytes is never reassigned and never written through, so the buffer
content survives; on the success path Munlock clears the pin and the mutex is
released, while every error path returns before of.Unlock(). -/
def OnionBuffer.destroyCore (of : OnionBuffer) (env : DestroyEnv) : DestroyResult :=
  let held : OnionBuffer := { of with locked := true }
  if env.mlockChunkFails then
    { buf := held, scratch := of.Bytes, err := some DestroyError.mlockChunk }
  else if env.readFails then
    { buf := held, scratch := of.Bytes ++ zipLocalHeader of.Name,
      err := some DestroyError.readNonEOF }
  else if env.zipWriteFails && !of.Bytes.isEmpty then
    { buf := held, scratch := of.Bytes ++ zipLocalHeader of.Name,
      err := some DestroyError.zipWrite }
  else if env.munlockFails then
    { buf := held,
      scratch := of.Bytes ++ zipLocalHeader of.Name ++ List.replicate of.Bytes.length 48,
      err := some DestroyError.munlock }
  else
    { buf := { of with locked := false, pinned := false },
      scratch := of.Bytes ++ zipLocalHeader of.Name ++ List.replicate of.Bytes.length 48,
      err := none }

/-- Destroy including the initial of.Lock(): on a buffer whose mutex is
already held the call blocks forever, modelled as `none`. -/
def OnionBuffer.Destroy (of : OnionBuffer) (env : DestroyEnv) : Option DestroyResult :=
  if of.locked then none else some (of.destroyCore env)

end Onionbox

namespace Onionbox

/-- Modelled from the spec: IntegrityCheck.compute (spec section 4.4) - the
GetChecksum method of the onion_buffer package is absent from src (onionbox.go
only calls it).  A concrete executable digest over the content bytes; its
digest of the Go code is md5, whose particular values no claim depends on. -/
def GetChecksum (bs : List Nat) : Nat :=
  bs.foldl (fun h b => (h * 131 + b) % (2 ^ 128)) 0

/-- Modelled from the spec: IntegrityCheck.verify (spec section 4.4) - the
ValidateChecksum method is absent from src.  It recomputes the digest over
the current content and compares it with the stored digest. -/
def OnionBuffer.ValidateChecksum (of : OnionBuffer) : Bool :=
  GetChecksum of.Bytes == of.Checksum

/-- Modelled from the spec: deterministic key derivation from the passphrase
for the Cipher (spec section 4.3), whose Encrypt/Decrypt functions are absent
from src. -/
def passKey (pass : String) : Nat :=
  pass.toList.foldl (fun h c => (h * 31 + c.toNat) % 251) 7

/-- Modelled from the spec: Cipher.encrypt (spec section 4.3) - passphrase
based symmetric encryption of an opaque byte payload, absent from src.  The
model prepends an authentication tag derived from the passphrase and shifts
every byte by the derived key. -/
def Encrypt (bs : List Nat) (pass : String) : List Nat :=
  passKey pass :: bs.map (fun b => (b + passKey pass) % 256)

/-- Modelled from the spec: Cipher.decrypt (spec section 4.3), absent from
src; fails (AuthenticationFailed) rather than returning wrong plaintext when
the passphrase does not match the tag. -/
def Decrypt (ct : List Nat) (pass : String) : Option (List Nat) :=
  match ct with
  | [] => none
  | tag :: rest =>
    if tag = passKey pass then
      some (rest.map (fun b => (b + 256 - passKey pass) % 256))
    else
      none

/-- Modelled from the spec: the BufferStore (spec section 3 and 4.2) - the
OnionStore type of the onion_buffer package is absent from src.  `buffers` is
its set of live entries (the map from name to buffer, as an association by
the Name field). -/
structure OnionStore where
  buffers : List OnionBuffer
deriving DecidableEq

/-- Modelled from the spec: store.Get - read-only lookup by name, NotFound
as `none`. -/
def OnionStore.Get (s : OnionStore) (name : String) : Option OnionBuffer :=
  s.buffers.find? (fun b => b.Name == name)

/-- Modelled from the spec: store.Exists. -/
def OnionStore.Exists (s : OnionStore) (name : String) : Bool :=
  (s.Get name).isSome

/-- Modelled from the spec: store.Add - rejects a name collision rather than
overwriting, otherwise inserts the buffer. -/
def OnionStore.Add (s : OnionStore) (b : OnionBuffer) : Option OnionStore :=
  if s.Exists b.Name then none else some (OnionStore.mk (s.buffers ++ [b]))

/-- Removal of every entry carrying the given name from the store map. -/
def OnionStore.remove (s : OnionStore) (name : String) : OnionStore :=
  OnionStore.mk (s.buffers.filter (fun b => !(b.Name == name)))

/-- Write-back of a mutation performed through the shared pointer a handler
got from Get: the stored entry with the same name becomes the updated
buffer. -/
def OnionStore.update (s : OnionStore) (b : OnionBuffer) : OnionStore :=
  OnionStore.mk (s.buffers.map (fun x => if x.Name == b.Name then b else x))

/-- Modelled from the spec: store.Destroy (spec section 4.2) - calls
buffer.Destroy() and removes the entry from the map, propagating the destroy
error; `none` when the buffer-level Destroy blocks on the mutex. -/
def OnionStore.Destroy (s : OnionStore) (b : OnionBuffer) (env : DestroyEnv) :
    Option (OnionStore × Option DestroyError) :=
  match b.Destroy env with
  | none => none
  | some r => some (s.remove b.Name, r.err)

end Onionbox

namespace Onionbox

/-- HTTP method of a download request. -/
inductive Method
  | GET
  | POST
deriving DecidableEq

/-- What the download handler (onionbox.go lines 327-448) writes back to the
client: the passphrase form page, one of its error replies, content bytes, or
nothing ever (`hung`) when it blocks forever on a buffer mutex. -/
inductive DlResponse
  | passwordPage
  | limitReached
  | integrityFailed
  | decryptFailed
  | content (bs : List Nat)
  | hung
deriving DecidableEq

/-- Outcome of one download-handler call: resulting store, response, and
whether the handler invoked the buffer-level Destroy and/or the store-level
destroy-and-evict on the way. -/
structure DlResult where
  store : OnionStore
  resp : DlResponse
  bufferDestroyCalled : Bool := false
  storeDestroyCalled : Bool := false
deriving DecidableEq

/-- Whether a response hands content bytes to the downloader. -/
def releasesContent : DlResponse → Bool
  | DlResponse.content _ => true
  | _ => false

/-- The GET (unencrypted) arm of download (onionbox.go lines 329-390): serve
the passphrase form if the buffer is encrypted; destroy-and-evict plus a
limit error when DownloadLimit > 0 and Downloads has reached it; refuse on a
failed checksum validation; otherwise increment Downloads (through the shared
pointer), call the buffer-level Destroy - with no DownloadLimit > 0 guard -
once the incremented count reaches DownloadLimit, and write the buffer bytes
to the client. -/
def downloadGET (s : OnionStore) (b : OnionBuffer) (env : DestroyEnv) : DlResult :=
  if b.Encrypted then
    { store := s, resp := DlResponse.passwordPage }
  else if 0 < b.DownloadLimit ∧ b.DownloadLimit ≤ b.Downloads then
    match s.Destroy b env with
    | none => { store := s, resp := DlResponse.hung, storeDestroyCalled := true }
    | some (s2, _) =>
      { store := s2, resp := DlResponse.limitReached, storeDestroyCalled := true }
  else if b.ValidateChecksum = false then
    { store := s, resp := DlResponse.integrityFailed }
  else if b.DownloadLimit ≤ b.Downloads + 1 then
    match OnionBuffer.Destroy { b with Downloads := b.Downloads + 1 } env with
    | none =>
      { store := s.update { b with Downloads := b.Downloads + 1 },
        resp := DlResponse.hung, bufferDestroyCalled := true }
    | some r =>
      { store := s.update r.buf, resp := DlResponse.content r.buf.Bytes,
        bufferDestroyCalled := true }
  else
    { store := s.update { b with Downloads := b.Downloads + 1 },
      resp := DlResponse.content b.Bytes }

/-- The POST (passphrase) arm of download (onionbox.go lines 392-443): limit
pre-check with destroy-and-evict, checksum validation, decryption with the
submitted passphrase, Downloads increment, store-level destroy-and-evict -
again with no DownloadLimit > 0 guard - once the incremented count reaches
DownloadLimit, then the decrypted bytes are written to the client. -/
def downloadPOST (s : OnionStore) (b : OnionBuffer) (pass : String) (env : DestroyEnv) :
    DlResult :=
  if 0 < b.DownloadLimit ∧ b.DownloadLimit ≤ b.Downloads then
    match s.Destroy b env with
    | none => { store := s, resp := DlResponse.hung, storeDestroyCalled := true }
    | some (s2, _) =>
      { store := s2, resp := DlResponse.limitReached, storeDestroyCalled := true }
  else if b.ValidateChecksum = false then
    { store := s, resp := DlResponse.integrityFailed }
  else
    match Decrypt b.Bytes pass with
    | none => { store := s, resp := DlResponse.decryptFailed }
    | some plain =>
      if b.DownloadLimit ≤ b.Downloads + 1 then
        match OnionStore.Destroy (s.update { b with Downloads := b.Downloads + 1 })
            { b with Downloads := b.Downloads + 1 } env with
        | none =>
          { store := s.update { b with Downloads := b.Downloads + 1 },
            resp := DlResponse.hung, storeDestroyCalled := true }
        | some (s2, _) =>
          { store := s2, resp := DlResponse.content plain, storeDestroyCalled := true }
      else
        { store := s.update { b with Downloads := b.Downloads + 1 },
          resp := DlResponse.content plain }

/-- Dispatch of the download handler body on the buffer Get returned. -/
def downloadBody (s : OnionStore) (b : OnionBuffer) (m : Method) (pass : String)
    (env : DestroyEnv) : DlResult :=
  match m with
  | Method.GET => downloadGET s b env
  | Method.POST => downloadPOST s b pass env

/-- The download handler (onionbox.go lines 327-448): looks the name up in
the store and runs the arm for the request method.  `none` when the name is
absent (the handler is only ever dispatched after store.Exists). -/
def download (s : OnionStore) (name : String) (m : Method) (pass : String)
    (env : DestroyEnv) : Option DlResult :=
  (s.Get name).map (fun b => downloadBody s b m pass env)

/-- One character of the download URL pattern: a lowercase ASCII letter. -/
def isLowerAZ (c : Char) : Bool :=
  decide (97 ≤ c.toNat) && decide (c.toNat ≤ 122)

/-- The regular expression onionbox.go line 45 matches against the URL path:
it matches anywhere in the path two or more consecutive lowercase letters. -/
def hasLowerPair : List Char → Bool
  | a :: b :: rest => (isLowerAZ a && isLowerAZ b) || hasLowerPair (b :: rest)
  | _ => false

/-- What the router (onionbox.go lines 161-179) does with a request: hand it
to the upload handler, hand it to the download handler (whose result is
carried along), write the "File not found" 404 (only reachable when ob.store
is nil), write the "404 page not found" reply, or - when the path matches the
download pattern, the store is non-nil, and the name is absent from it - fall
through without writing any response at all. -/
inductive RouterOutcome
  | uploadDispatch
  | handled (r : DlResult)
  | fileNotFound
  | pageNotFound
  | noResponse
deriving DecidableEq

/-- The router (onionbox.go lines 161-179).  `storeIsNil` embeds the Go
`ob.store != nil` test (main always assigns a store, so it is false in every
run).  Note the shape of the source: the else branch writing "File not found"
belongs to the store-nil test, not to the Exists test, so a missing name
inside a live store produces no response. -/
def router (storeIsNil : Bool) (s : OnionStore) (path : String) (m : Method)
    (pass : String) (env : DestroyEnv) : RouterOutcome :=
  if path = "/" then
    RouterOutcome.uploadDispatch
  else if hasLowerPair path.toList then
    if !storeIsNil then
      if s.Exists (path.drop 1) then
        match download s (path.drop 1) m pass env with
        | some r => RouterOutcome.handled r
        | none => RouterOutcome.noResponse
      else
        RouterOutcome.noResponse
    else
      RouterOutcome.fileNotFound
  else
    RouterOutcome.pageNotFound

/-- Reply of the upload POST tail (onionbox.go lines 244-320) as far as the
claims need it: the share link with the generated name, or the add-to-store
failure reply. -/
inductive UploadResponse
  | link (name : String)
  | addFailed
deriving DecidableEq

/-- Failure-injection environment for the upload tail: whether the Mlock of
the freshly assigned content bytes fails (the code only logs that), and the
environment for the Destroy call the handler makes after Add. -/
structure UploadEnv where
  mlockBytesFails : Bool := false
  destroyEnv : DestroyEnv := {}
deriving DecidableEq

/-- The upload POST tail (onionbox.go lines 244-320), starting from the
assembled zip bytes: build the OnionBuffer (optionally encrypting with the
passphrase), Mlock its content bytes (pinned), store the checksum, apply the
optional download limit and expiration, Add it to the store, and then -
"Destroy temp OnionBuffer" - call Destroy on the very buffer object that was
just inserted, before answering with the share link.  SetExpiration is
absent from src and modelled from the spec as expiresAt := now + duration;
CreatedAt is never assigned by the code and stays zero. -/
def upload (s : OnionStore) (zipBytes : List Nat) (name : String)
    (passOpt : Option String) (limitOpt : Option Int) (expireOpt : Option Nat)
    (now : Nat) (env : UploadEnv) : OnionStore × UploadResponse :=
  let contentBytes : List Nat :=
    match passOpt with
    | some p => Encrypt zipBytes p
    | none => zipBytes
  let b : OnionBuffer :=
    { Name := name
      Bytes := contentBytes
      pinned := !env.mlockBytesFails
      Encrypted := passOpt.isSome
      Checksum := GetChecksum contentBytes
      DownloadLimit := limitOpt.getD 0
      ExpiresAt := match expireOpt with
        | some d => now + d
        | none => 0 }
  match s.Add b with
  | none => (s, UploadResponse.addFailed)
  | some s2 =>
    match b.Destroy env.destroyEnv with
    | none => (s2, UploadResponse.link name)
    | some r => (s2.update r.buf, UploadResponse.link name)

/-- One file travelling through the chunk pipeline. -/
structure PipeFile where
  filename : String
  bytes : List Nat
deriving DecidableEq

/-- State of the writeFilesToBuffers loop (onionbox.go lines 450-479) and its
surrounding upload plumbing: the uploadQueue channel contents, the zip
entries written so far, how many times the consumer has called wg.Done(), the
channel-closed flag (the producer closes only after wg.Wait() returns), and
whether the loop faulted (receiving from the closed channel yields a nil
FileHeader whose Open call faults). -/
structure PipelineState where
  queue : List PipeFile
  archive : List PipeFile
  doneSignals : Nat
  closed : Bool
  crashed : Bool := false
deriving DecidableEq

/-- One iteration of the for/select loop of writeFilesToBuffers (onionbox.go
lines 450-479).  A ready receive wins over the default branch: with a file in
the queue it is received and written to the zip writer; with the queue empty
and closed the receive is still ready and yields nil (the loop faults); with
the queue empty and open the default branch fires and since len(uploadQueue)
is 0 it calls wg.Done().  The loop itself never terminates. -/
def writeFilesToBuffersStep (s : PipelineState) : PipelineState :=
  match s.queue with
  | f :: rest => { s with queue := rest, archive := s.archive ++ [f] }
  | [] =>
    if s.closed then
      { s with crashed := true }
    else
      { s with doneSignals := s.doneSignals + 1 }

/-- The expiry predicate with the semantics the claim asserts, for comparison
with IsExpired: expired iff an expiry is configured and now is at or past it.
The struct has no hasExpiry flag, so "an expiry was set" can only mean a
nonzero ExpiresAt. -/
def claimExpired (of : OnionBuffer) (now : Nat) : Bool :=
  (of.ExpiresAt != 0) && (of.ExpiresAt ≤ now)

/-- A buffer on which no expiration was ever set: ExpiresAt keeps the zero
time. -/
def noExpiryBuf : OnionBuffer :=
  { Name := "ab", Bytes := [1] }

/-- Concrete input for the Destroy content claim: one content byte 65. -/
def c2buf : OnionBuffer :=
  { Name := "ab", Bytes := [65] }

/-- Unencrypted buffer with DownloadLimit 0 (unlimited per the spec) and a
valid checksum, plus a store holding it. -/
def c3buf : OnionBuffer :=
  { Name := "cc", Bytes := [1, 2], Checksum := GetChecksum [1, 2], pinned := true }

def c3store : OnionStore :=
  OnionStore.mk [c3buf]

def c3pass : String :=
  "pw"

def c3ct : List Nat :=
  Encrypt [1, 2] c3pass

/-- Encrypted buffer with DownloadLimit 0 and a valid checksum over the
ciphertext, plus a store holding it. -/
def c3ebuf : OnionBuffer :=
  { Name := "dd", Bytes := c3ct, Encrypted := true, Checksum := GetChecksum c3ct,
    pinned := true }

def c3estore : OnionStore :=
  OnionStore.mk [c3ebuf]

/-- Concrete input for the double-Destroy claim. -/
def c5buf : OnionBuffer :=
  { Name := "ff", Bytes := [65] }

/-- Encrypted buffer with DownloadLimit 1, in a store, for the limit claim. -/
def c6ct : List Nat :=
  Encrypt [9, 9, 7] "pw"

def c6buf : OnionBuffer :=
  { Name := "gg", Bytes := c6ct, Encrypted := true, Checksum := GetChecksum c6ct,
    DownloadLimit := 1, pinned := true }

def c6store : OnionStore :=
  OnionStore.mk [c6buf]

/-- Unencrypted buffer that has already used up its DownloadLimit of 1. -/
def c6wbuf : OnionBuffer :=
  { Name := "hh", Bytes := [4], Checksum := GetChecksum [4], DownloadLimit := 1,
    Downloads := 1 }

def c6wstore : OnionStore :=
  OnionStore.mk [c6wbuf]

/-- Unencrypted buffer with a valid checksum for the checksum-guard witness. -/
def c7buf : OnionBuffer :=
  { Name := "ii", Bytes := [5], Checksum := GetChecksum [5] }

def c7store : OnionStore :=
  OnionStore.mk [c7buf]

/-- Pipeline state with an empty, still-open queue and no completion signal
sent yet. -/
def c8s0 : PipelineState :=
  { queue := [], archive := [], doneSignals := 0, closed := false }

/-- Concrete inputs for the Destroy error-path claim: a buffer and an
environment in which the Mlock of the scratch chunk fails. -/
def c10buf : OnionBuffer :=
  { Name := "jj", Bytes := [3] }

def c10env : DestroyEnv :=
  { mlockChunkFails := true }

/-- Destroy never modifies the content, name, or download counter of the
buffer: every branch of destroyCore carries them through unchanged (the wipe
bytes go into the scratch zip buffer instead). -/
theorem destroyCore_preserves (of : OnionBuffer) (env : DestroyEnv) :
    (of.destroyCore env).buf.Bytes = of.Bytes ∧
    (of.destroyCore env).buf.Name = of.Name ∧
    (of.destroyCore env).buf.Downloads = of.Downloads := by
  unfold OnionBuffer.destroyCore
  split_ifs <;> exact ⟨rfl, rfl, rfl⟩

/-- Characterisation of a run of destroyCore that returned no error: the
mutex is released, the pin is released, everything else is unchanged, and the
scratch zip buffer holds the content followed by the entry header and one
ASCII "0" byte per content byte. -/
theorem destroyCore_ok (of : OnionBuffer) (env : DestroyEnv)
    (h : (of.destroyCore env).err = none) :
    of.destroyCore env =
      { buf := { of with locked := false, pinned := false },
        scratch := of.Bytes ++ zipLocalHeader of.Name ++
          List.replicate of.Bytes.length 48,
        err := none } := by
  unfold OnionBuffer.destroyCore at h ⊢
  split_ifs at h ⊢
  simp_all

/-- Whether destroyCore errors depends only on the environment and on the
content bytes, not on the other buffer fields. -/
theorem destroyCore_err_none_of (of of2 : OnionBuffer) (env : DestroyEnv)
    (hB : of2.Bytes = of.Bytes) (h : (of.destroyCore env).err = none) :
    (of2.destroyCore env).err = none := by
  unfold OnionBuffer.destroyCore at h ⊢
  rw [hB]
  split_ifs at h ⊢
  simp_all

/-- Every error return of destroyCore leaves the mutex held. -/
theorem destroyCore_err_locked (of : OnionBuffer) (env : DestroyEnv)
    (h : (of.destroyCore env).err.isSome = true) :
    (of.destroyCore env).buf.locked = true := by
  unfold OnionBuffer.destroyCore at h ⊢
  split_ifs at h ⊢ <;> simp_all

/-- Updating the stored entry that shares the found buffer's name makes the
lookup return the updated buffer. -/
theorem find?_map_update (l : List OnionBuffer) (name : String) (b b2 : OnionBuffer)
    (h : l.find? (fun x => x.Name == name) = some b) (hn : b2.Name = b.Name) :
    (l.map (fun x => if x.Name == b2.Name then b2 else x)).find?
      (fun x => x.Name == name) = some b2 := by
  induction l with
  | nil => simp at h
  | cons a t ih =>
    by_cases ha : (a.Name == name) = true
    · rw [List.find?_cons_of_pos (p := fun (x : OnionBuffer) => x.Name == name) _ ha] at h
      have hab : a = b := Option.some.inj h
      subst hab
      have h1 : (a.Name == b2.Name) = true := by
        rw [hn]
        simp
      have h2 : (b2.Name == name) = true := by
        rw [hn]
        exact ha
      simp only [List.map_cons]
      rw [if_pos h1]
      exact List.find?_cons_of_pos (p := fun (x : OnionBuffer) => x.Name == name) _ h2
    · rw [List.find?_cons_of_neg (p := fun (x : OnionBuffer) => x.Name == name) _ ha] at h
      have hbname : (b.Name == name) = true :=
        List.find?_some (p := fun (x : OnionBuffer) => x.Name == name) h
      have hx : ¬((a.Name == b2.Name) = true) := by
        intro hx
        have e1 : a.Name = b2.Name := eq_of_beq hx
        have e2 : b.Name = name := eq_of_beq hbname
        apply ha
        rw [e1, hn, e2]
        simp
      simp only [List.map_cons]
      rw [if_neg hx]
      rw [List.find?_cons_of_neg (p := fun (x : OnionBuffer) => x.Name == name) _ ha]
      exact ih h

/-- Store-level form of find?_map_update. -/
theorem Get_update (s : OnionStore) (name : String) (b b2 : OnionBuffer)
    (h : s.Get name = some b) (hn : b2.Name = b.Name) :
    (s.update b2).Get name = some b2 :=
  find?_map_update s.buffers name b b2 h hn

/-- The checksum guard of the GET arm: content is released only after
ValidateChecksum passed, and a failed validation is answered by an error
reply (or an earlier branch), never by content. -/
theorem downloadGET_guard (s : OnionStore) (b : OnionBuffer) (env : DestroyEnv) :
    (releasesContent (downloadGET s b env).resp = true → b.ValidateChecksum = true) ∧
    (b.ValidateChecksum = false →
      (downloadGET s b env).resp = DlResponse.integrityFailed ∨
      (downloadGET s b env).resp = DlResponse.limitReached ∨
      (downloadGET s b env).resp = DlResponse.passwordPage ∨
      (downloadGET s b env).resp = DlResponse.hung) := by
  unfold downloadGET
  split_ifs with h1 h2 h3 h4
  · exact ⟨fun hrel => absurd hrel (by simp [releasesContent]),
      fun _ => Or.inr (Or.inr (Or.inl rfl))⟩
  · cases hsd : OnionStore.Destroy s b env with
    | none =>
      exact ⟨fun hrel => absurd hrel (by simp [releasesContent]),
        fun _ => Or.inr (Or.inr (Or.inr rfl))⟩
    | some p =>
      obtain ⟨s2, e⟩ := p
      exact ⟨fun hrel => absurd hrel (by simp [releasesContent]),
        fun _ => Or.inr (Or.inl rfl)⟩
  · exact ⟨fun hrel => absurd hrel (by simp [releasesContent]), fun _ => Or.inl rfl⟩
  · have hv : b.ValidateChecksum = true := by
      cases hvb : b.ValidateChecksum
      · exact absurd hvb h3
      · rfl
    cases hbd : OnionBuffer.Destroy { b with Downloads := b.Downloads + 1 } env with
    | none =>
      exact ⟨fun hrel => absurd hrel (by simp [releasesContent]),
        fun hf => absurd hf (by simp [hv])⟩
    | some r =>
      exact ⟨fun _ => hv, fun hf => absurd hf (by simp [hv])⟩
  · have hv : b.ValidateChecksum = true := by
      cases hvb : b.ValidateChecksum
      · exact absurd hvb h3
      · rfl
    exact ⟨fun _ => hv, fun hf => absurd hf (by simp [hv])⟩

/-- The checksum guard of the POST arm, in the same form. -/
theorem downloadPOST_guard (s : OnionStore) (b : OnionBuffer) (pass : String)
    (env : DestroyEnv) :
    (releasesContent (downloadPOST s b pass env).resp = true →
      b.ValidateChecksum = true) ∧
    (b.ValidateChecksum = false →
      (downloadPOST s b pass env).resp = DlResponse.integrityFailed ∨
      (downloadPOST s b pass env).resp = DlResponse.limitReached ∨
      (downloadPOST s b pass env).resp = DlResponse.passwordPage ∨
      (downloadPOST s b pass env).resp = DlResponse.hung) := by
  unfold downloadPOST
  split_ifs with h1 h2 h4
  · cases hsd : OnionStore.Destroy s b env with
    | none =>
      exact ⟨fun hrel => absurd hrel (by simp [releasesContent]),
        fun _ => Or.inr (Or.inr (Or.inr rfl))⟩
    | some p =>
      obtain ⟨s2, e⟩ := p
      exact ⟨fun hrel => absurd hrel (by simp [releasesContent]),
        fun _ => Or.inr (Or.inl rfl)⟩
  · exact ⟨fun hrel => absurd hrel (by simp [releasesContent]), fun _ => Or.inl rfl⟩
  · have hv : b.ValidateChecksum = true := by
      cases hvb : b.ValidateChecksum
      · exact absurd hvb h2
      · rfl
    cases hdc : Decrypt b.Bytes pass with
    | none =>
      exact ⟨fun hrel => absurd hrel (by simp [releasesContent]),
        fun hf => absurd hf (by simp [hv])⟩
    | some plain =>
      cases hsd2 : OnionStore.Destroy
          (s.update { b with Downloads := b.Downloads + 1 })
          { b with Downloads := b.Downloads + 1 } env with
      | none =>
        exact ⟨fun hrel => absurd hrel (by simp [releasesContent]),
          fun hf => absurd hf (by simp [hv])⟩
      | some p =>
        obtain ⟨s2, e⟩ := p
        exact ⟨fun _ => hv, fun hf => absurd hf (by simp [hv])⟩
  · have hv : b.ValidateChecksum = true := by
      cases hvb : b.ValidateChecksum
      · exact absurd hvb h2
      · rfl
    cases hdc : Decrypt b.Bytes pass with
    | none =>
      exact ⟨fun hrel => absurd hrel (by simp [releasesContent]),
        fun hf => absurd hf (by simp [hv])⟩
    | some plain =>
      exact ⟨fun _ => hv, fun hf => absurd hf (by simp [hv])⟩

/-- Claim C1 counterexample: noExpiryBuf has no expiration set (ExpiresAt is
the zero time), yet IsExpired reports it expired at time 1; the predicate the
claim describes (claimExpired) disagrees with IsExpired there, so the claim
as stated - in particular that a buffer with no expiry is never expired - is
false of the code. -/
theorem C1_counterexample :
    noExpiryBuf.ExpiresAt = 0 ∧ noExpiryBuf.IsExpired 1 = true ∧
    claimExpired noExpiryBuf 1 = false ∧
    ¬(∀ (of : OnionBuffer) (now : Nat), of.IsExpired now = claimExpired of now) := by
  refine ⟨by decide, by decide, by decide, fun h => ?_⟩
  exact absurd (h noExpiryBuf 1) (by decide)

/-- Claim C1 (amended): IsExpired returns true iff the current time is at or
past ExpiresAt, unconditionally - the struct has no hasExpiry flag, so a
buffer on which no expiration was ever set (zero ExpiresAt) is reported
expired at every time. -/
theorem C1_amended (of : OnionBuffer) (now : Nat) :
    of.IsExpired now = decide (of.ExpiresAt ≤ now) := by
  unfold OnionBuffer.IsExpired
  by_cases h : now < of.ExpiresAt
  · rw [if_pos h]
    have hx : ¬(of.ExpiresAt ≤ now) := by omega
    simp [hx]
  · rw [if_neg h]
    have hx : of.ExpiresAt ≤ now := by omega
    simp [hx]

/-- Claim C2: code bug - Destroy on the buffer holding content [65] returns
no error, yet the content is neither overwritten with zeros nor truncated:
the Bytes field still holds the original byte, and the ASCII "0" (48) wipe
bytes went into a scratch zip stream appended after a copy of the content. -/
theorem C2_destroy_leaves_content :
    c2buf.Destroy {} = some (c2buf.destroyCore {}) ∧
    (c2buf.destroyCore {}).err = none ∧
    (c2buf.destroyCore {}).buf.Bytes = [65] ∧
    (c2buf.destroyCore {}).scratch = [65] ++ zipLocalHeader "ab" ++ [48] ∧
    ([65] : List Nat) ≠ [] := by
  decide

/-- Claim C3: code bug - with DownloadLimit = 0 the post-increment check
"Downloads >= DownloadLimit" lacks the "DownloadLimit > 0" guard that the
pre-check has, so the very first successful download already triggers
destruction: the GET path runs the buffer-level Destroy on the stored buffer
(whose memory pin is thereby released), and the POST path runs the
store-level destroy-and-evict, leaving the store empty. -/
theorem C3_limit_zero_destroys :
    download c3store "cc" Method.GET "" {} =
      some { store := OnionStore.mk [{ c3buf with Downloads := 1, pinned := false }],
             resp := DlResponse.content [1, 2],
             bufferDestroyCalled := true } ∧
    download c3estore "dd" Method.POST c3pass {} =
      some { store := OnionStore.mk [],
             resp := DlResponse.content [1, 2],
             storeDestroyCalled := true } := by
  decide

/-- Claim C4: code bug - the upload handler adds the buffer to the store and
then calls Destroy on that very same stored object ("Destroy temp
OnionBuffer"), whose Munlock releases the memory pin: immediately after a
successful upload the buffer is still live (reachable through the store) but
its pin is already gone (pinned = false). -/
theorem C4_pin_released_while_live :
    (upload (OnionStore.mk []) [7, 8] "ee" none none none 0 {}).2 =
      UploadResponse.link "ee" ∧
    ((upload (OnionStore.mk []) [7, 8] "ee" none none none 0 {}).1.Get "ee").map
      OnionBuffer.pinned = some false := by
  decide

/-- Claim C5 counterexample: after two error-free Destroy calls on c5buf the
content is still the original [65], not empty - the "content remains
permanently empty after both calls" part of the claim is false. -/
theorem C5_counterexample :
    ((c5buf.destroyCore {}).buf.destroyCore {}).err = none ∧
    ((c5buf.destroyCore {}).buf.destroyCore {}).buf.Bytes = [65] ∧
    ([65] : List Nat) ≠ [] := by
  decide

/-- Claim C5 (amended): Destroy is idempotent in the sense that when a first
call returned no error, a second call in the same environment also returns no
error and leaves the buffer exactly as the first call left it - but the
content is never truncated: after both calls it still equals the original
content rather than being empty. -/
theorem C5_amended (of : OnionBuffer) (env : DestroyEnv) (r1 r2 : DestroyResult)
    (h1 : of.Destroy env = some r1) (he : r1.err = none)
    (h2 : r1.buf.Destroy env = some r2) :
    r2.err = none ∧ r2.buf.Bytes = of.Bytes ∧ r2.buf = r1.buf := by
  unfold OnionBuffer.Destroy at h1 h2
  by_cases hl : of.locked = true
  · simp [hl] at h1
  · rw [if_neg hl] at h1
    have hr1 : of.destroyCore env = r1 := Option.some.inj h1
    subst hr1
    have hok := destroyCore_ok of env he
    rw [hok] at h2
    have h2b : OnionBuffer.destroyCore { of with locked := false, pinned := false } env
        = r2 := by
      rw [if_neg (by simp)] at h2
      exact Option.some.inj h2
    subst h2b
    have he2 : (OnionBuffer.destroyCore
        { of with locked := false, pinned := false } env).err = none :=
      destroyCore_err_none_of of { of with locked := false, pinned := false } env rfl he
    have hok2 := destroyCore_ok { of with locked := false, pinned := false } env he2
    rw [hok2, hok]
    exact ⟨rfl, rfl, rfl⟩

/-- Claim C5 witness: the amended idempotence facts at the concrete buffer
c5buf in the failure-free environment. -/
theorem C5_amended_witness :
    ((c5buf.destroyCore {}).buf.destroyCore {}).err = none ∧
    ((c5buf.destroyCore {}).buf.destroyCore {}).buf.Bytes = c5buf.Bytes ∧
    ((c5buf.destroyCore {}).buf.destroyCore {}).buf = (c5buf.destroyCore {}).buf :=
  C5_amended c5buf {} (c5buf.destroyCore {}) ((c5buf.destroyCore {}).buf.destroyCore {})
    (by decide) (by decide) (by decide)

/-- Claim C6 counterexample: for the encrypted buffer c6buf with
DownloadLimit = 1, the single successful POST download already destroys and
evicts it (store-level destroy, store left empty), and the second attempt -
the (L+1)-th, after exactly L = 1 successful downloads - does not receive a
LimitReached error: the router finds the name gone and falls through with no
response at all. -/
theorem C6_counterexample :
    router false c6store "/gg" Method.POST "pw" {} =
      RouterOutcome.handled
        { store := OnionStore.mk [], resp := DlResponse.content [9, 9, 7],
          storeDestroyCalled := true } ∧
    router false (OnionStore.mk []) "/gg" Method.POST "pw" {} =
      RouterOutcome.noResponse := by
  decide

/-- Claim C6 (amended): for an unencrypted stored buffer with a positive
download limit, a valid checksum, and a free mutex: while Downloads is below
DownloadLimit a GET download succeeds with the buffer bytes and the entry
stays in the store, and once Downloads has reached DownloadLimit the next GET
attempt returns LimitReached and destroys and removes the buffer from the
store.  For encrypted buffers the destroy-and-evict already happens as a side
effect of the limit-reaching successful POST download itself, and a later
attempt finds the name gone and receives no response (see the
counterexample). -/
theorem C6_amended (s : OnionStore) (name : String) (b : OnionBuffer)
    (hget : s.Get name = some b) (henc : b.Encrypted = false)
    (hlock : b.locked = false) (hpos : 0 < b.DownloadLimit)
    (hck : b.ValidateChecksum = true) :
    (b.DownloadLimit ≤ b.Downloads →
      download s name Method.GET "" {} =
        some { store := s.remove name, resp := DlResponse.limitReached,
               bufferDestroyCalled := false, storeDestroyCalled := true }) ∧
    (b.Downloads < b.DownloadLimit →
      ∃ r, download s name Method.GET "" {} = some r ∧
        r.resp = DlResponse.content b.Bytes ∧ r.store.Exists name = true) := by
  have hname : b.Name = name :=
    eq_of_beq (List.find?_some (p := fun (x : OnionBuffer) => x.Name == name) hget)
  constructor
  · intro hd
    unfold download
    rw [hget]
    simp only [Option.map_some']
    unfold downloadBody downloadGET
    rw [if_neg (by simp [henc])]
    rw [if_pos ⟨hpos, hd⟩]
    have hsd : OnionStore.Destroy s b {} = some (s.remove b.Name, (b.destroyCore {}).err) := by
      unfold OnionStore.Destroy OnionBuffer.Destroy
      rw [if_neg (by simp [hlock])]
    rw [hsd, hname]
  · intro hlt
    by_cases hc2 : b.DownloadLimit ≤ b.Downloads + 1
    · have hbd : OnionBuffer.Destroy { b with Downloads := b.Downloads + 1 } {} =
          some (OnionBuffer.destroyCore { b with Downloads := b.Downloads + 1 } {}) := by
        unfold OnionBuffer.Destroy
        rw [if_neg (by simp [hlock])]
      have hpres := destroyCore_preserves { b with Downloads := b.Downloads + 1 } {}
      have heq : download s name Method.GET "" {} =
          some { store := s.update
                   (OnionBuffer.destroyCore { b with Downloads := b.Downloads + 1 } {}).buf,
                 resp := DlResponse.content b.Bytes,
                 bufferDestroyCalled := true, storeDestroyCalled := false } := by
        unfold download
        rw [hget]
        simp only [Option.map_some']
        unfold downloadBody downloadGET
        rw [if_neg (by simp [henc])]
        rw [if_neg (by omega : ¬(0 < b.DownloadLimit ∧ b.DownloadLimit ≤ b.Downloads))]
        rw [if_neg (by simp [hck])]
        rw [if_pos hc2]
        rw [hbd]
        rfl
      refine ⟨_, heq, rfl, ?_⟩
      have hupd := Get_update s name b
        (OnionBuffer.destroyCore { b with Downloads := b.Downloads + 1 } {}).buf
        hget (by rw [hpres.2.1])
      unfold OnionStore.Exists
      rw [hupd]
      rfl
    · have heq : download s name Method.GET "" {} =
          some { store := s.update { b with Downloads := b.Downloads + 1 },
                 resp := DlResponse.content b.Bytes,
                 bufferDestroyCalled := false, storeDestroyCalled := false } := by
        unfold download
        rw [hget]
        simp only [Option.map_some']
        unfold downloadBody downloadGET
        rw [if_neg (by simp [henc])]
        rw [if_neg (by omega : ¬(0 < b.DownloadLimit ∧ b.DownloadLimit ≤ b.Downloads))]
        rw [if_neg (by simp [hck])]
        rw [if_neg hc2]
      refine ⟨_, heq, rfl, ?_⟩
      have hupd := Get_update s name b { b with Downloads := b.Downloads + 1 } hget rfl
      unfold OnionStore.Exists
      rw [hupd]
      rfl

/-- Claim C6 witness: the amended limit behaviour at the concrete unencrypted
buffer c6wbuf whose single allowed download has already happened: the next
GET attempt returns LimitReached and evicts it. -/
theorem C6_amended_witness :
    download c6wstore "hh" Method.GET "" {} =
      some { store := c6wstore.remove "hh", resp := DlResponse.limitReached,
             bufferDestroyCalled := false, storeDestroyCalled := true } :=
  (C6_amended c6wstore "hh" c6wbuf (by decide) (by decide) (by decide) (by decide)
    (by decide)).1 (by decide)

/-- Claim C7: before every release of content bytes by the download handler -
on the unencrypted GET path and the passphrase POST path alike - the checksum
is recomputed over the current content (ValidateChecksum) and compared with
the stored digest: a response carrying content implies the validation passed,
and when validation fails the request is answered by an error reply (the
integrity error, or an earlier branch of the handler) and no content bytes
are written to the client. -/
theorem C7_checksum_guards_release (s : OnionStore) (name : String) (m : Method)
    (pass : String) (env : DestroyEnv) (b : OnionBuffer) (r : DlResult)
    (hget : s.Get name = some b) (hdl : download s name m pass env = some r) :
    (releasesContent r.resp = true → b.ValidateChecksum = true) ∧
    (b.ValidateChecksum = false →
      r.resp = DlResponse.integrityFailed ∨ r.resp = DlResponse.limitReached ∨
      r.resp = DlResponse.passwordPage ∨ r.resp = DlResponse.hung) := by
  unfold download at hdl
  rw [hget] at hdl
  simp only [Option.map_some', Option.some.injEq] at hdl
  subst hdl
  cases m
  · exact downloadGET_guard s b env
  · exact downloadPOST_guard s b pass env

/-- Claim C7 witness: at the concrete unencrypted buffer c7buf, whose GET
download releases content, the theorem yields that the checksum validated. -/
theorem C7_witness : c7buf.ValidateChecksum = true :=
  (C7_checksum_guards_release c7store "ii" Method.GET "" {} c7buf
      { store := OnionStore.mk [{ c7buf with Downloads := 1 }],
        resp := DlResponse.content [5], bufferDestroyCalled := true }
      (by decide) (by decide)).1 (by decide)

/-- Claim C8 counterexample: from an empty, still-open queue one iteration of
the consumer loop signals completion (wg.Done) although the producer has not
closed the queue, and a second iteration signals again - completion is
inferred from observing the queue currently empty, is not guarded by an
explicit closed-and-drained signal, and does not happen exactly once. -/
theorem C8_counterexample :
    c8s0.closed = false ∧
    (writeFilesToBuffersStep c8s0).doneSignals = 1 ∧
    (writeFilesToBuffersStep (writeFilesToBuffersStep c8s0)).doneSignals = 2 ∧
    ¬(∀ s : PipelineState,
        s.doneSignals < (writeFilesToBuffersStep s).doneSignals → s.closed = true) := by
  refine ⟨by decide, by decide, by decide, fun h => ?_⟩
  exact absurd (h c8s0 (by decide)) (by decide)

/-- Claim C8 (amended): the consumer loop emits a completion signal exactly
when it observes the queue currently empty on a not-yet-closed channel -
completion is detected by polling emptiness in the select default branch, it
recurs on every later iteration that sees the queue empty, and the producer
closes the queue only after wg.Wait has already consumed the first signal. -/
theorem C8_amended (s : PipelineState) :
    decide (s.doneSignals < (writeFilesToBuffersStep s).doneSignals) =
      (s.queue.isEmpty && !s.closed) := by
  unfold writeFilesToBuffersStep
  cases hq : s.queue <;> cases hc : s.closed <;>
    simp [hq, hc, Nat.lt_irrefl, Nat.lt_succ_self]

/-- Claim C9: code bug - a download request for a name absent from a live
(non-nil) store produces no response at all, not a NotFound reply: the "File
not found" branch is attached to the store-is-nil test (second conjunct
below), which never holds in a run since main always assigns the store, so
the absent-name case falls through without writing anything. -/
theorem C9_absent_name_no_response :
    router false (OnionStore.mk []) "/abc" Method.GET "" {} =
      RouterOutcome.noResponse ∧
    router true (OnionStore.mk []) "/abc" Method.GET "" {} =
      RouterOutcome.fileNotFound := by
  decide

/-- Claim C10: whenever Destroy returns a non-nil error (the chunk Mlock
fails, a write into the scratch zip fails, the read loop ends with a non-EOF
error, or the Munlock fails), it has returned without releasing the buffer
mutex: the buffer is left locked, and a retry of Destroy on it blocks forever
(modelled as returning none). -/
theorem C10_error_keeps_lock (of : OnionBuffer) (env : DestroyEnv) (r : DestroyResult)
    (hd : of.Destroy env = some r) (he : r.err.isSome = true) :
    r.buf.locked = true ∧ r.buf.Destroy env = none := by
  unfold OnionBuffer.Destroy at hd
  by_cases hl : of.locked = true
  · simp [hl] at hd
  · rw [if_neg hl] at hd
    have hr : of.destroyCore env = r := Option.some.inj hd
    subst hr
    have hlk := destroyCore_err_locked of env he
    exact ⟨hlk, by simp [OnionBuffer.Destroy, hlk]⟩

/-- Claim C10 witness: with the scratch-chunk Mlock failing, Destroy on
c10buf errors, leaves the mutex held, and a retry blocks. -/
theorem C10_witness :
    (c10buf.destroyCore c10env).buf.locked = true ∧
    (c10buf.destroyCore c10env).buf.Destroy c10env = none :=
  C10_error_keeps_lock c10buf c10env (c10buf.destroyCore c10env) (by decide) (by decide)

end Onionbox
